import Mathlib

/-!
Shallow embedding of the session-tracking service of this repository
(`tracking.service.ts` and `tracking.controller.ts`).

Timestamps are modelled as `Int` milliseconds since the epoch; the current
instant (`new Date()` / `Date.now()`) and the current calendar day
(`getTodayDate()`) are passed as explicit parameters.  The Prisma tables
`userSession` and `dailyStat` are modelled as lists of records, and each
Prisma call (`updateMany`, `create`, `findUnique`, `findMany`) is translated
to the corresponding list operation.
-/

inductive DeviceType where
  | mobile
  | desktop
deriving DecidableEq

/-- A row of the `userSession` table. -/
structure Session where
  userId : String
  deviceType : DeviceType
  ipAddress : String
  userAgent : String
  isActive : Bool
  loginAt : Int
  lastSeen : Int
deriving DecidableEq

/-- A row of the `dailyStat` table (`date` is its unique key). -/
structure DailyStat where
  date : String
  totalLogins : Nat
  mobileLogins : Nat
  desktopLogins : Nat
  uniqueUserIds : List String
deriving DecidableEq

/-- The persisted state: both tables. -/
structure Store where
  sessions : List Session
  dailyStats : List DailyStat
deriving DecidableEq

def emptyStore : Store := ⟨[], []⟩

/-- The fixed alternatives of the regex `/mobile|android|iphone|ipad|tablet|phone/i`. -/
def mobileKeywords : List String :=
  ["mobile", "android", "iphone", "ipad", "tablet", "phone"]

/-- ASCII lowering of a string to its character list (the effect of the
regex `i` flag on the ASCII keywords above). -/
def lowerChars (s : String) : List Char :=
  s.data.map Char.toLower

/-- Executable test that `needle` occurs at the start of `hay`. -/
def startsWithChars : List Char → List Char → Bool
  | [], _ => true
  | _ :: _, [] => false
  | a :: as, b :: bs => a == b && startsWithChars as bs

/-- Executable test that `needle` occurs somewhere inside `hay`: the search
performed by `RegExp.prototype.test` for an alternation of literals. -/
def containsChars (needle : List Char) : List Char → Bool
  | [] => startsWithChars needle []
  | c :: cs => startsWithChars needle (c :: cs) || containsChars needle cs

/-- `TrackingService.detectDevice`: the regex
`/mobile|android|iphone|ipad|tablet|phone/i` tested against the user agent. -/
def detectDevice (userAgent : String) : DeviceType :=
  if mobileKeywords.any (fun k => containsChars k.data (lowerChars userAgent)) then
    DeviceType.mobile
  else
    DeviceType.desktop

/-- The row transformation of
`updateMany({ where: { userId, isActive: true }, data: { isActive: false } })`,
used by both `recordLogin` and `recordLogout`. -/
def closeActiveFor (u : String) (s : Session) : Session :=
  if s.userId == u && s.isActive then { s with isActive := false } else s

/-- The daily-stats upsert at the end of `TrackingService.recordLogin`:
`findUnique` on `date`, then `update` with increments (and a conditional
`push` on `uniqueUserIds`), or `create` when the row is absent. -/
def applyDailyLogin (stats : List DailyStat) (u : String) (deviceType : DeviceType)
    (today : String) : List DailyStat :=
  match stats.find? (fun d => d.date == today) with
  | some _ =>
      stats.map fun d =>
        if d.date == today then
          { d with
            totalLogins := d.totalLogins + 1
            mobileLogins :=
              if deviceType == DeviceType.mobile then d.mobileLogins + 1 else d.mobileLogins
            desktopLogins :=
              if deviceType == DeviceType.desktop then d.desktopLogins + 1 else d.desktopLogins
            uniqueUserIds :=
              if d.uniqueUserIds.contains u then d.uniqueUserIds
              else d.uniqueUserIds ++ [u] }
        else d
  | none =>
      stats ++ [{ date := today
                  totalLogins := 1
                  mobileLogins := if deviceType == DeviceType.mobile then 1 else 0
                  desktopLogins := if deviceType == DeviceType.desktop then 1 else 0
                  uniqueUserIds := [u] }]

/-- `TrackingService.recordLogin`: deactivate the user's active sessions,
append one new active session with `loginAt = lastSeen = now`, then upsert
the daily stats for `today`. -/
def recordLogin (st : Store) (userId userAgent ipAddress : String) (now : Int)
    (today : String) : Store :=
  { sessions :=
      st.sessions.map (closeActiveFor userId) ++
        [{ userId := userId
           deviceType := detectDevice userAgent
           ipAddress := ipAddress
           userAgent := userAgent
           isActive := true
           loginAt := now
           lastSeen := now }]
    dailyStats := applyDailyLogin st.dailyStats userId (detectDevice userAgent) today }

/-- `TrackingService.recordLogout`: deactivate all active sessions of `userId`. -/
def recordLogout (st : Store) (userId : String) : Store :=
  { st with sessions := st.sessions.map (closeActiveFor userId) }

/-- `TrackingService.heartbeat`: set `lastSeen := now` on all active sessions
of `userId`. -/
def heartbeat (st : Store) (userId : String) (now : Int) : Store :=
  { st with sessions := st.sessions.map fun s =>
      if s.userId == userId && s.isActive then { s with lastSeen := now } else s }

/-- `TrackingService.expireInactiveSessions`: deactivate every active session
whose `lastSeen` is strictly before `now - inactiveMinutes * 60 * 1000`;
return the `updateMany` row count together with the new store. -/
def expireInactiveSessions (st : Store) (now : Int) (inactiveMinutes : Int) : Nat × Store :=
  let cutoff := now - inactiveMinutes * 60 * 1000
  ((st.sessions.filter fun s => s.isActive && decide (s.lastSeen < cutoff)).length,
   { st with sessions := st.sessions.map fun s =>
       if s.isActive && decide (s.lastSeen < cutoff) then { s with isActive := false }
       else s })

/-- The object returned by `TrackingService.getStats`. -/
structure Snapshot where
  currentOnline : Nat
  currentMobile : Nat
  currentDesktop : Nat
  todayLogins : Nat
  todayMobile : Nat
  todayDesktop : Nat
  todayUniqueUsers : Nat
  date : String
  updatedAt : Int
deriving DecidableEq

/-- `TrackingService.getStats`: read the active sessions and today's
daily-stat row (`?? 0` fallbacks when absent) and build the snapshot.  The
store is returned alongside: the method performs only reads. -/
def getStats (st : Store) (today : String) (now : Int) : Snapshot × Store :=
  let activeSessions := st.sessions.filter fun s => s.isActive
  let currentOnline := activeSessions.length
  let currentMobile :=
    (activeSessions.filter fun s => s.deviceType == DeviceType.mobile).length
  let currentDesktop :=
    (activeSessions.filter fun s => s.deviceType == DeviceType.desktop).length
  let dailyStat := st.dailyStats.find? (fun d => d.date == today)
  ({ currentOnline := currentOnline
     currentMobile := currentMobile
     currentDesktop := currentDesktop
     todayLogins := (dailyStat.map DailyStat.totalLogins).getD 0
     todayMobile := (dailyStat.map DailyStat.mobileLogins).getD 0
     todayDesktop := (dailyStat.map DailyStat.desktopLogins).getD 0
     todayUniqueUsers := (dailyStat.map fun d => d.uniqueUserIds.length).getD 0
     date := today
     updatedAt := now }, st)

/-- Outcome of the `GET /api/stats` handler. -/
inductive ControllerResult where
  | unauthorized
  | ok (snapshot : Snapshot)
deriving DecidableEq

/-- JavaScript truthiness of the `x-stats-key` header value: an absent
header is `undefined` and the empty string is falsy. -/
def truthyHeader : Option String → Bool
  | none => false
  | some s => !(s == "")

/-- `TrackingController.getStats`: reject unless the header is truthy and
strictly equals `process.env.STATS_SECRET`; otherwise run one
`expireInactiveSessions(15)` sweep and then `getStats`. -/
def controllerGetStats (statsKey : Option String) (secret : Option String) (st : Store)
    (today : String) (now : Int) : ControllerResult × Store :=
  if !truthyHeader statsKey || statsKey != secret then
    (ControllerResult.unauthorized, st)
  else
    let st1 := (expireInactiveSessions st now 15).2
    let (snap, st2) := getStats st1 today now
    (ControllerResult.ok snap, st2)

/-- One service call, with its time/day parameters. -/
inductive Op where
  | login (userId userAgent ipAddress : String) (now : Int) (today : String)
  | logout (userId : String)
  | beat (userId : String) (now : Int)
  | expire (inactiveMinutes : Int) (now : Int)
  | query (today : String) (now : Int)

/-- Effect of one service call on the store. -/
def step (st : Store) : Op → Store
  | Op.login u ua ip now today => recordLogin st u ua ip now today
  | Op.logout u => recordLogout st u
  | Op.beat u now => heartbeat st u now
  | Op.expire m now => (expireInactiveSessions st now m).2
  | Op.query today now => (getStats st today now).2

/-- Store reached from `st` by a sequence of service calls. -/
def run (ops : List Op) (st : Store) : Store :=
  ops.foldl step st

/-- Number of sessions of `u` with `isActive = true`. -/
def countActive (u : String) (st : Store) : Nat :=
  (st.sessions.filter fun s => s.userId == u && s.isActive).length

/-- At most one active session per user. -/
def sessionInv (st : Store) : Prop :=
  ∀ u : String, countActive u st ≤ 1

/-- The DailyStat invariants of the spec. -/
def dailyInv (st : Store) : Prop :=
  ∀ d ∈ st.dailyStats,
    d.totalLogins = d.mobileLogins + d.desktopLogins ∧
    d.uniqueUserIds.Nodup ∧
    d.uniqueUserIds.length ≤ d.totalLogins

/-! ### Helper lemmas about the session predicates -/

theorem closeActiveFor_userId (u : String) (s : Session) :
    (closeActiveFor u s).userId = s.userId := by
  unfold closeActiveFor
  split <;> rfl

theorem closeActiveFor_isActive_le (u : String) (s : Session)
    (h : (closeActiveFor u s).isActive = true) : s.isActive = true := by
  unfold closeActiveFor at h
  by_cases h1 : (s.userId == u && s.isActive) = true
  · rw [if_pos h1] at h
    simp at h
  · rwa [if_neg h1] at h

theorem closeActiveFor_of_inactive (u : String) (s : Session) (h : s.isActive = false) :
    closeActiveFor u s = s := by
  unfold closeActiveFor
  simp [h]

theorem closeActiveFor_ne (u : String) (s : Session) (h : s.userId ≠ u) :
    closeActiveFor u s = s := by
  unfold closeActiveFor
  have hb : (s.userId == u) = false := by simp [h]
  simp [hb]

theorem closeActiveFor_idem (u : String) (s : Session) :
    closeActiveFor u (closeActiveFor u s) = closeActiveFor u s := by
  unfold closeActiveFor
  by_cases h1 : (s.userId == u && s.isActive) = true
  · rw [if_pos h1]
    simp
  · rw [if_neg h1, if_neg h1]

theorem activePred_closeActiveFor (u : String) (s : Session) :
    ((closeActiveFor u s).userId == u && (closeActiveFor u s).isActive) = false := by
  unfold closeActiveFor
  by_cases h1 : s.userId = u
  · by_cases h2 : s.isActive = true <;> simp [h1, h2]
  · simp [h1]

theorem activePredV_closeActiveFor (u v : String) (hvu : v ≠ u) (s : Session) :
    ((closeActiveFor u s).userId == v && (closeActiveFor u s).isActive) =
      (s.userId == v && s.isActive) := by
  unfold closeActiveFor
  by_cases h1 : s.userId = u
  · have hb : (u == v) = false := by simp [Ne.symm hvu]
    by_cases h2 : s.isActive = true <;> simp [h1, h2, hb]
  · simp [h1]

theorem activePredV_closeActiveFor_le (u v : String) (s : Session)
    (h : ((closeActiveFor u s).userId == v && (closeActiveFor u s).isActive) = true) :
    (s.userId == v && s.isActive) = true := by
  unfold closeActiveFor at h
  by_cases h1 : (s.userId == u && s.isActive) = true
  · rw [if_pos h1] at h
    simp at h
  · rwa [if_neg h1] at h

theorem closeActiveFor_self_inactive (u : String) (x : Session)
    (h : (closeActiveFor u x).userId = u) : (closeActiveFor u x).isActive = false := by
  have := activePred_closeActiveFor u x
  rw [h] at this
  simpa using this

/-! ### Counting lemmas -/

theorem length_filter_map_le (f : Session → Session) (p : Session → Bool)
    (hf : ∀ s, p (f s) = true → p s = true) (l : List Session) :
    ((l.map f).filter p).length ≤ (l.filter p).length := by
  induction l with
  | nil => simp
  | cons s l ih =>
    simp only [List.map_cons, List.filter_cons]
    by_cases h : p (f s) = true
    · rw [if_pos h, if_pos (hf s h)]
      simpa using ih
    · rw [if_neg h]
      by_cases hs : p s = true
      · rw [if_pos hs]
        exact Nat.le_trans ih (Nat.le_succ _)
      · rw [if_neg hs]
        exact ih

theorem length_filter_map_eq (f : Session → Session) (p : Session → Bool)
    (hf : ∀ s, p (f s) = p s) (l : List Session) :
    ((l.map f).filter p).length = (l.filter p).length := by
  induction l with
  | nil => simp
  | cons s l ih =>
    simp only [List.map_cons, List.filter_cons, hf s]
    by_cases hs : p s = true
    · rw [if_pos hs, if_pos hs]
      simpa using ih
    · rw [if_neg hs, if_neg hs]
      exact ih

theorem countActive_recordLogin_self (st : Store) (u ua ip : String) (now : Int)
    (today : String) : countActive u (recordLogin st u ua ip now today) = 1 := by
  unfold countActive recordLogin
  simp only [List.filter_append]
  have h1 : (st.sessions.map (closeActiveFor u)).filter
      (fun s => s.userId == u && s.isActive) = [] := by
    rw [List.filter_map]
    have h2 : st.sessions.filter
        ((fun s => s.userId == u && s.isActive) ∘ closeActiveFor u) = [] := by
      rw [List.filter_eq_nil_iff]
      intro a _
      simp [Function.comp, activePred_closeActiveFor]
    rw [h2]
    rfl
  rw [h1]
  simp

theorem countActive_recordLogin_other (st : Store) (u v ua ip : String) (now : Int)
    (today : String) (hvu : v ≠ u) :
    countActive v (recordLogin st u ua ip now today) = countActive v st := by
  unfold countActive recordLogin
  simp only [List.filter_append]
  have hb : (u == v) = false := by simp [Ne.symm hvu]
  rw [List.length_append]
  have h2 : ((st.sessions.map (closeActiveFor u)).filter
      (fun s => s.userId == v && s.isActive)).length =
      (st.sessions.filter (fun s => s.userId == v && s.isActive)).length :=
    length_filter_map_eq _ _ (activePredV_closeActiveFor u v hvu) _
  simp [hb, h2]

theorem countActive_recordLogout_le (st : Store) (u v : String) :
    countActive v (recordLogout st u) ≤ countActive v st := by
  unfold countActive recordLogout
  exact length_filter_map_le _ _ (activePredV_closeActiveFor_le u v) _

theorem countActive_heartbeat (st : Store) (u v : String) (now : Int) :
    countActive v (heartbeat st u now) = countActive v st := by
  unfold countActive heartbeat
  refine length_filter_map_eq _ _ (fun s => ?_) _
  by_cases h : (s.userId == u && s.isActive) = true
  · rw [if_pos h]
  · rw [if_neg h]

theorem countActive_expire_le (st : Store) (v : String) (now m : Int) :
    countActive v (expireInactiveSessions st now m).2 ≤ countActive v st := by
  unfold countActive expireInactiveSessions
  refine length_filter_map_le _ _ (fun s h => ?_) _
  by_cases hc : (s.isActive && decide (s.lastSeen < now - m * 60 * 1000)) = true
  · rw [if_pos hc] at h
    simp at h
  · rwa [if_neg hc] at h

theorem getStats_snd (st : Store) (today : String) (now : Int) :
    (getStats st today now).2 = st := rfl

theorem step_preserves_sessionInv (st : Store) (op : Op) (h : sessionInv st) :
    sessionInv (step st op) := by
  cases op with
  | login u ua ip now today =>
    intro v
    by_cases hv : v = u
    · subst hv
      rw [show step st (Op.login v ua ip now today) = recordLogin st v ua ip now today
          from rfl]
      rw [countActive_recordLogin_self]
    · rw [show step st (Op.login u ua ip now today) = recordLogin st u ua ip now today
          from rfl]
      rw [countActive_recordLogin_other st u v ua ip now today hv]
      exact h v
  | logout u =>
    intro v
    exact Nat.le_trans (countActive_recordLogout_le st u v) (h v)
  | beat u now =>
    intro v
    rw [show step st (Op.beat u now) = heartbeat st u now from rfl]
    rw [countActive_heartbeat]
    exact h v
  | expire m now =>
    intro v
    exact Nat.le_trans (countActive_expire_le st v now m) (h v)
  | query today now =>
    intro v
    rw [show step st (Op.query today now) = st from rfl]
    exact h v

theorem run_preserves_sessionInv (ops : List Op) (st : Store) (h : sessionInv st) :
    sessionInv (run ops st) := by
  induction ops generalizing st with
  | nil => exact h
  | cons op ops ih =>
    exact ih (step st op) (step_preserves_sessionInv st op h)

theorem sessionInv_emptyStore : sessionInv emptyStore := by
  intro u
  simp [countActive, emptyStore]

/-- Claim C1: starting from the empty store, after any sequence of completed
service calls every user has at most one active session; moreover
`recordLogin` leaves every pre-existing session of the logging-in user
inactive and appends exactly one new session (which is active), so the count
for that user is exactly 1 right after a login. -/
theorem at_most_one_active_session :
    (∀ (ops : List Op) (u : String), countActive u (run ops emptyStore) ≤ 1) ∧
    (∀ (st : Store) (u ua ip : String) (now : Int) (today : String),
      countActive u (recordLogin st u ua ip now today) = 1 ∧
      (recordLogin st u ua ip now today).sessions.length = st.sessions.length + 1 ∧
      (∀ (i : Nat) (s : Session), i < st.sessions.length →
        (recordLogin st u ua ip now today).sessions[i]? = some s →
        s.userId = u → s.isActive = false)) := by
  constructor
  · intro ops u
    exact run_preserves_sessionInv ops emptyStore sessionInv_emptyStore u
  · intro st u ua ip now today
    refine ⟨countActive_recordLogin_self st u ua ip now today, by simp [recordLogin], ?_⟩
    intro i s hi hsome hu
    rw [show (recordLogin st u ua ip now today).sessions =
        st.sessions.map (closeActiveFor u) ++ [_] from rfl] at hsome
    rw [List.getElem?_append_left (by simpa using hi)] at hsome
    rw [List.getElem?_map] at hsome
    rw [List.getElem?_eq_getElem hi] at hsome
    simp only [Option.map_some'] at hsome
    cases hsome
    exact closeActiveFor_self_inactive u _ hu

/-- Witness for C1 at a concrete input: a user who logs in twice has exactly
one active session, and the pre-existing session left by the first login is
inactive after the second. -/
theorem at_most_one_active_session_witness :
    countActive "alice" (run [Op.login "alice" "ua" "ip" 0 "2026-01-01",
        Op.login "alice" "ua" "ip" 5 "2026-01-01"] emptyStore) ≤ 1 ∧
    countActive "alice"
      (recordLogin ⟨[⟨"alice", DeviceType.desktop, "ip", "ua", true, 0, 0⟩], []⟩
        "alice" "ua" "ip" 5 "2026-01-01") = 1 ∧
    ((0 : Nat) < ([⟨"alice", DeviceType.desktop, "ip", "ua", true, 0, 0⟩] : List Session).length ∧
      (recordLogin ⟨[⟨"alice", DeviceType.desktop, "ip", "ua", true, 0, 0⟩], []⟩
        "alice" "ua" "ip" 5 "2026-01-01").sessions[0]? =
        some ⟨"alice", DeviceType.desktop, "ip", "ua", false, 0, 0⟩ ∧
      (⟨"alice", DeviceType.desktop, "ip", "ua", false, 0, 0⟩ : Session).userId = "alice" ∧
      (⟨"alice", DeviceType.desktop, "ip", "ua", false, 0, 0⟩ : Session).isActive = false) := by
  refine ⟨at_most_one_active_session.1 _ "alice",
    (at_most_one_active_session.2 ⟨[⟨"alice", DeviceType.desktop, "ip", "ua", true, 0, 0⟩], []⟩
      "alice" "ua" "ip" 5 "2026-01-01").1,
    by decide, by decide, rfl,
    (at_most_one_active_session.2 ⟨[⟨"alice", DeviceType.desktop, "ip", "ua", true, 0, 0⟩], []⟩
      "alice" "ua" "ip" 5 "2026-01-01").2.2 0
      ⟨"alice", DeviceType.desktop, "ip", "ua", false, 0, 0⟩ (by decide) (by decide) rfl⟩

/-! ### Daily-stat invariant -/

theorem applyDailyLogin_preserves (stats : List DailyStat) (u : String)
    (dev : DeviceType) (today : String)
    (h : ∀ d ∈ stats,
      d.totalLogins = d.mobileLogins + d.desktopLogins ∧
      d.uniqueUserIds.Nodup ∧ d.uniqueUserIds.length ≤ d.totalLogins) :
    ∀ d ∈ applyDailyLogin stats u dev today,
      d.totalLogins = d.mobileLogins + d.desktopLogins ∧
      d.uniqueUserIds.Nodup ∧ d.uniqueUserIds.length ≤ d.totalLogins := by
  unfold applyDailyLogin
  cases hf : stats.find? (fun d => d.date == today) with
  | none =>
    intro d hd
    rcases List.mem_append.1 hd with hd | hd
    · exact h d hd
    · simp only [List.mem_singleton] at hd
      subst hd
      cases dev <;> simp
  | some d0 =>
    intro d hd
    rcases List.mem_map.1 hd with ⟨e, he, hde⟩
    by_cases hdate : (e.date == today) = true
    · rw [if_pos hdate] at hde
      obtain ⟨h1, h2, h3⟩ := h e he
      subst hde
      by_cases hc : e.uniqueUserIds.contains u
      · rw [if_pos hc]
        refine ⟨?_, ?_, ?_⟩
        · cases dev <;> simp [h1] <;> omega
        · simpa using h2
        · simpa using Nat.le_trans h3 (Nat.le_succ _)
      · rw [if_neg hc]
        have hu : u ∉ e.uniqueUserIds := by
          simpa using hc
        refine ⟨?_, ?_, ?_⟩
        · cases dev <;> simp [h1] <;> omega
        · simpa [List.nodup_append] using ⟨h2, hu⟩
        · simpa using Nat.succ_le_succ h3
    · rw [if_neg hdate] at hde
      subst hde
      exact h e he

theorem step_preserves_dailyInv (st : Store) (op : Op) (h : dailyInv st) :
    dailyInv (step st op) := by
  cases op with
  | login u ua ip now today =>
    intro d hd
    exact applyDailyLogin_preserves st.dailyStats u (detectDevice ua) today h d hd
  | logout u => exact h
  | beat u now => exact h
  | expire m now => exact h
  | query today now => exact h

theorem run_preserves_dailyInv (ops : List Op) (st : Store) (h : dailyInv st) :
    dailyInv (run ops st) := by
  induction ops generalizing st with
  | nil => exact h
  | cons op ops ih =>
    exact ih (step st op) (step_preserves_dailyInv st op h)

/-- Claim C2: every DailyStat record reachable by any sequence of service
calls from the empty store satisfies `totalLogins = mobileLogins +
desktopLogins`, has no duplicate userId in `uniqueUserIds`, and satisfies
`uniqueUserIds.length ≤ totalLogins`. -/
theorem dailyStat_invariants :
    ∀ ops : List Op, dailyInv (run ops emptyStore) := by
  intro ops
  apply run_preserves_dailyInv
  intro d hd
  simp [emptyStore] at hd

/-- Witness for C2: the invariant instantiated after two concrete logins of
the same user on the same day. -/
theorem dailyStat_invariants_witness :
    dailyInv (run [Op.login "alice" "iPhone" "ip" 0 "2026-01-01",
      Op.login "alice" "iPhone" "ip" 5 "2026-01-01"] emptyStore) :=
  dailyStat_invariants _

/-! ### Device detection -/

theorem startsWithChars_iff (a b : List Char) :
    startsWithChars a b = true ↔ a <+: b := by
  induction a generalizing b with
  | nil => simp [startsWithChars, List.nil_prefix]
  | cons x xs ih =>
    cases b with
    | nil => simp [startsWithChars]
    | cons y ys =>
      rw [startsWithChars, List.cons_prefix_cons]
      simp [ih]

theorem containsChars_iff (a l : List Char) :
    containsChars a l = true ↔ a <:+: l := by
  induction l with
  | nil =>
    rw [containsChars, startsWithChars_iff, List.infix_nil]
    simp [List.prefix_nil]
  | cons c cs ih =>
    rw [containsChars, List.infix_cons_iff]
    simp [startsWithChars_iff, ih]

/-- Claim C3: `detectDevice` returns `mobile` exactly when the input
contains, case-insensitively, one of the fixed mobile keywords, and
`desktop` otherwise; concretely an iPhone user agent is mobile, a pure
Windows user agent is desktop, and the empty string is desktop. -/
theorem detectDevice_substring_spec :
    (∀ ua : String, detectDevice ua = DeviceType.mobile ↔
      ∃ k ∈ mobileKeywords, k.data <:+: ua.data.map Char.toLower) ∧
    (∀ ua : String, detectDevice ua = DeviceType.desktop ↔
      ¬ ∃ k ∈ mobileKeywords, k.data <:+: ua.data.map Char.toLower) ∧
    detectDevice "Mozilla/5.0 (iPhone; CPU iPhone OS 16_0 like Mac OS X)" =
      DeviceType.mobile ∧
    detectDevice "Windows NT 10.0" = DeviceType.desktop ∧
    detectDevice "" = DeviceType.desktop := by
  have key : ∀ ua : String,
      (mobileKeywords.any fun k => containsChars k.data (lowerChars ua)) = true ↔
      ∃ k ∈ mobileKeywords, k.data <:+: ua.data.map Char.toLower := by
    intro ua
    rw [List.any_eq_true]
    constructor
    · rintro ⟨k, hk, hc⟩
      exact ⟨k, hk, (containsChars_iff _ _).1 hc⟩
    · rintro ⟨k, hk, hc⟩
      exact ⟨k, hk, (containsChars_iff _ _).2 hc⟩
  refine ⟨?_, ?_, by decide, by decide, by decide⟩
  · intro ua
    unfold detectDevice
    by_cases h : (mobileKeywords.any fun k => containsChars k.data (lowerChars ua)) = true
    · simp [h, (key ua).1 h]
    · rw [if_neg h]
      simp only [key ua] at h
      simp [h]
  · intro ua
    unfold detectDevice
    by_cases h : (mobileKeywords.any fun k => containsChars k.data (lowerChars ua)) = true
    · simp [h, (key ua).1 h]
    · rw [if_neg h]
      simp only [key ua] at h
      simp [h]

/-! ### Expiry -/

/-- Claim C4: `expireInactiveSessions` deactivates exactly the active
sessions whose `lastSeen` is strictly before `now - minutes` (a session at or
after the cutoff stays as it is), touches nothing else, and returns the
number of sessions it deactivated. -/
theorem expireInactiveSessions_correct :
    ∀ (st : Store) (now m : Int),
      (expireInactiveSessions st now m).1 =
        st.sessions.countP
          (fun s => s.isActive && decide (s.lastSeen < now - m * 60 * 1000)) ∧
      (expireInactiveSessions st now m).2.dailyStats = st.dailyStats ∧
      (expireInactiveSessions st now m).2.sessions.length = st.sessions.length ∧
      (∀ (i : Nat) (s : Session), st.sessions[i]? = some s →
        (s.isActive = true → s.lastSeen < now - m * 60 * 1000 →
          (expireInactiveSessions st now m).2.sessions[i]? =
            some { s with isActive := false }) ∧
        (s.isActive = false ∨ now - m * 60 * 1000 ≤ s.lastSeen →
          (expireInactiveSessions st now m).2.sessions[i]? = some s)) := by
  intro st now m
  refine ⟨(List.countP_eq_length_filter _ _).symm, rfl, by simp [expireInactiveSessions], ?_⟩
  intro i s hsome
  have hmap : (expireInactiveSessions st now m).2.sessions[i]? =
      some (if s.isActive && decide (s.lastSeen < now - m * 60 * 1000) then
        { s with isActive := false } else s) := by
    show (st.sessions.map _)[i]? = _
    rw [List.getElem?_map, hsome]
    rfl
  constructor
  · intro ha hl
    rw [hmap, if_pos (by simp [ha, hl])]
  · intro hcase
    have hcond : (s.isActive && decide (s.lastSeen < now - m * 60 * 1000)) = false := by
      rcases hcase with hf | hle
      · simp [hf]
      · simp [Int.not_lt.2 hle]
    rw [hmap, if_neg (by simp [hcond])]

/-- Witness for C4: with threshold 15 minutes, a session last seen 16 minutes
ago is deactivated by the sweep and a session last seen 14 minutes ago is
kept active and untouched. -/
theorem expireInactiveSessions_correct_witness :
    (expireInactiveSessions
      ⟨[⟨"a", DeviceType.mobile, "ip", "ua", true, 0, 1000000 - 16 * 60 * 1000⟩,
        ⟨"b", DeviceType.desktop, "ip", "ua", true, 0, 1000000 - 14 * 60 * 1000⟩], []⟩
      1000000 15).2.sessions[0]? =
      some ⟨"a", DeviceType.mobile, "ip", "ua", false, 0, 1000000 - 16 * 60 * 1000⟩ ∧
    (expireInactiveSessions
      ⟨[⟨"a", DeviceType.mobile, "ip", "ua", true, 0, 1000000 - 16 * 60 * 1000⟩,
        ⟨"b", DeviceType.desktop, "ip", "ua", true, 0, 1000000 - 14 * 60 * 1000⟩], []⟩
      1000000 15).2.sessions[1]? =
      some ⟨"b", DeviceType.desktop, "ip", "ua", true, 0, 1000000 - 14 * 60 * 1000⟩ := by
  constructor
  · exact ((expireInactiveSessions_correct
      ⟨[⟨"a", DeviceType.mobile, "ip", "ua", true, 0, 1000000 - 16 * 60 * 1000⟩,
        ⟨"b", DeviceType.desktop, "ip", "ua", true, 0, 1000000 - 14 * 60 * 1000⟩], []⟩
      1000000 15).2.2.2 0
      ⟨"a", DeviceType.mobile, "ip", "ua", true, 0, 1000000 - 16 * 60 * 1000⟩
      (by decide)).1 rfl (by decide)
  · exact ((expireInactiveSessions_correct
      ⟨[⟨"a", DeviceType.mobile, "ip", "ua", true, 0, 1000000 - 16 * 60 * 1000⟩,
        ⟨"b", DeviceType.desktop, "ip", "ua", true, 0, 1000000 - 14 * 60 * 1000⟩], []⟩
      1000000 15).2.2.2 1
      ⟨"b", DeviceType.desktop, "ip", "ua", true, 0, 1000000 - 14 * 60 * 1000⟩
      (by decide)).2 (Or.inr (by decide))

/-! ### Logout idempotence -/

theorem listMap_fix {α : Type} (f : α → α) (l : List α) (h : ∀ a ∈ l, f a = a) :
    l.map f = l := by
  induction l with
  | nil => rfl
  | cons x xs ih =>
    simp only [List.map_cons, List.cons.injEq]
    exact ⟨h x (by simp), ih fun a ha => h a (by simp [ha])⟩

/-- Claim C5: `recordLogout` is idempotent, and when the user has no active
session it leaves the store unchanged. -/
theorem recordLogout_idempotent :
    ∀ (st : Store) (u : String),
      recordLogout (recordLogout st u) u = recordLogout st u ∧
      ((∀ s ∈ st.sessions, s.userId = u → s.isActive = false) →
        recordLogout st u = st) := by
  intro st u
  constructor
  · have hmm : (st.sessions.map (closeActiveFor u)).map (closeActiveFor u) =
        st.sessions.map (closeActiveFor u) := by
      rw [List.map_map]
      exact List.map_congr_left fun s _ => closeActiveFor_idem u s
    simp only [recordLogout, hmm]
  · intro h
    have hmap : st.sessions.map (closeActiveFor u) = st.sessions := by
      refine listMap_fix _ _ fun s hs => ?_
      by_cases hu : s.userId = u
      · exact closeActiveFor_of_inactive u s (h s hs hu)
      · exact closeActiveFor_ne u s hu
    simp only [recordLogout, hmap]

/-- Witness for C5: a store whose only session of the user is already
inactive is left unchanged by `recordLogout`, and a double logout equals a
single one on a store with an active session. -/
theorem recordLogout_idempotent_witness :
    recordLogout (recordLogout ⟨[⟨"alice", DeviceType.mobile, "ip", "ua", true, 0, 0⟩], []⟩
        "alice") "alice" =
      recordLogout ⟨[⟨"alice", DeviceType.mobile, "ip", "ua", true, 0, 0⟩], []⟩ "alice" ∧
    recordLogout ⟨[⟨"bob", DeviceType.mobile, "ip", "ua", false, 0, 0⟩], []⟩ "bob" =
      ⟨[⟨"bob", DeviceType.mobile, "ip", "ua", false, 0, 0⟩], []⟩ := by
  constructor
  · exact (recordLogout_idempotent
      ⟨[⟨"alice", DeviceType.mobile, "ip", "ua", true, 0, 0⟩], []⟩ "alice").1
  · exact (recordLogout_idempotent
      ⟨[⟨"bob", DeviceType.mobile, "ip", "ua", false, 0, 0⟩], []⟩ "bob").2
      (by decide)

/-! ### Stats snapshot -/

theorem length_filter_mobile_add_desktop (l : List Session) :
    (l.filter fun s => s.deviceType == DeviceType.mobile).length +
      (l.filter fun s => s.deviceType == DeviceType.desktop).length = l.length := by
  induction l with
  | nil => rfl
  | cons s l ih =>
    cases hdev : s.deviceType <;> simp [List.filter_cons, hdev] <;> omega

/-- Claim C6: the snapshot of `getStats` has `currentOnline` equal to the
number of active sessions, `currentMobile + currentDesktop = currentOnline`,
today fields all zero when no DailyStat row exists for `today`, and equal to
that row's counters (and unique-user count) when it exists. -/
theorem getStats_snapshot_correct :
    ∀ (st : Store) (today : String) (now : Int),
      (getStats st today now).1.currentOnline =
        (st.sessions.filter fun s => s.isActive).length ∧
      (getStats st today now).1.currentMobile + (getStats st today now).1.currentDesktop =
        (getStats st today now).1.currentOnline ∧
      (st.dailyStats.find? (fun d => d.date == today) = none →
        (getStats st today now).1.todayLogins = 0 ∧
        (getStats st today now).1.todayMobile = 0 ∧
        (getStats st today now).1.todayDesktop = 0 ∧
        (getStats st today now).1.todayUniqueUsers = 0) ∧
      (∀ ds : DailyStat, st.dailyStats.find? (fun d => d.date == today) = some ds →
        (getStats st today now).1.todayLogins = ds.totalLogins ∧
        (getStats st today now).1.todayMobile = ds.mobileLogins ∧
        (getStats st today now).1.todayDesktop = ds.desktopLogins ∧
        (getStats st today now).1.todayUniqueUsers = ds.uniqueUserIds.length) ∧
      (getStats st today now).1.date = today ∧
      (getStats st today now).1.updatedAt = now := by
  intro st today now
  refine ⟨rfl, ?_, ?_, ?_, rfl, rfl⟩
  · exact length_filter_mobile_add_desktop _
  · intro hnone
    simp only [getStats, hnone]
    exact ⟨rfl, rfl, rfl, rfl⟩
  · intro ds hsome
    simp only [getStats, hsome]
    exact ⟨rfl, rfl, rfl, rfl⟩

/-- Witness for C6: on a store with one active mobile session and no daily
stats, the snapshot reports one user online and all today fields zero. -/
theorem getStats_snapshot_correct_witness :
    (getStats ⟨[⟨"alice", DeviceType.mobile, "ip", "ua", true, 0, 0⟩], []⟩
      "2026-01-01" 7).1.currentOnline = 1 ∧
    (getStats ⟨[⟨"alice", DeviceType.mobile, "ip", "ua", true, 0, 0⟩], []⟩
      "2026-01-01" 7).1.todayLogins = 0 ∧
    (getStats ⟨[⟨"alice", DeviceType.mobile, "ip", "ua", true, 0, 0⟩], []⟩
      "2026-01-01" 7).1.todayUniqueUsers = 0 := by
  have h := getStats_snapshot_correct
    ⟨[⟨"alice", DeviceType.mobile, "ip", "ua", true, 0, 0⟩], []⟩ "2026-01-01" 7
  have hz := h.2.2.1 (by decide)
  refine ⟨?_, hz.1, hz.2.2.2⟩
  rw [h.1]
  decide

/-- Claim C7: `getStats` is a pure read: the store after the call is exactly
the store before it, both tables included, so it never deactivates a
session. -/
theorem getStats_is_pure_read :
    ∀ (st : Store) (today : String) (now : Int),
      (getStats st today now).2 = st ∧
      (getStats st today now).2.sessions = st.sessions ∧
      (getStats st today now).2.dailyStats = st.dailyStats ∧
      step st (Op.query today now) = st :=
  fun _ _ _ => ⟨rfl, rfl, rfl, rfl⟩

/-! ### Controller -/

/-- Claim C8 counterexample: configure the shared secret as the empty string
and send a header equal to it.  The header matches the secret, yet because
`!statsKey` treats the empty string as falsy the handler returns
`unauthorized` instead of the sweep-and-snapshot result the claim promises
for a matching header. -/
theorem controller_matching_empty_key_rejected :
    (some "" : Option String) = some "" ∧
    (controllerGetStats (some "") (some "") emptyStore "2026-01-01" 0).1 =
      ControllerResult.unauthorized ∧
    ∀ snap : Snapshot,
      (controllerGetStats (some "") (some "") emptyStore "2026-01-01" 0).1 ≠
        ControllerResult.ok snap := by
  refine ⟨rfl, rfl, ?_⟩
  intro snap h
  rw [show (controllerGetStats (some "") (some "") emptyStore "2026-01-01" 0).1 =
      ControllerResult.unauthorized from rfl] at h
  exact ControllerResult.noConfusion h

/-- Claim C8 (amended): when the header is absent, empty, or different from
the configured secret, the handler answers `unauthorized` and leaves the
store unchanged; when the header is a non-empty string equal to the
configured secret, it performs exactly one `expireInactiveSessions(15)` sweep
and then returns the `getStats` snapshot of the swept store. -/
theorem controller_auth_and_sweep :
    ∀ (key secret : Option String) (st : Store) (today : String) (now : Int),
      ((key = none ∨ key = some "" ∨ key ≠ secret) →
        controllerGetStats key secret st today now =
          (ControllerResult.unauthorized, st)) ∧
      (∀ s : String, s ≠ "" → key = some s → secret = some s →
        controllerGetStats key secret st today now =
          (ControllerResult.ok
            (getStats (expireInactiveSessions st now 15).2 today now).1,
           (expireInactiveSessions st now 15).2)) := by
  intro key secret st today now
  constructor
  · intro hcase
    have hcond : (!truthyHeader key || key != secret) = true := by
      rcases hcase with rfl | rfl | hne
      · simp [truthyHeader]
      · simp [truthyHeader]
      · simp [hne]
    unfold controllerGetStats
    rw [if_pos hcond]
  · intro s hs hkey hsec
    subst hkey
    subst hsec
    have hcond : ¬((!truthyHeader (some s) || (some s : Option String) != some s) = true) := by
      simp [truthyHeader, hs]
    unfold controllerGetStats
    rw [if_neg hcond]
    rfl

/-- Witness for the amended C8: a concrete missing header is rejected with
the store untouched, and a concrete matching non-empty key sweeps and
answers the snapshot. -/
theorem controller_auth_and_sweep_witness :
    controllerGetStats none (some "k") emptyStore "2026-01-01" 0 =
      (ControllerResult.unauthorized, emptyStore) ∧
    controllerGetStats (some "k") (some "k") emptyStore "2026-01-01" 0 =
      (ControllerResult.ok
        (getStats (expireInactiveSessions emptyStore 0 15).2 "2026-01-01" 0).1,
       (expireInactiveSessions emptyStore 0 15).2) := by
  constructor
  · exact (controller_auth_and_sweep none (some "k") emptyStore "2026-01-01" 0).1
      (Or.inl rfl)
  · exact (controller_auth_and_sweep (some "k") (some "k") emptyStore "2026-01-01" 0).2
      "k" (by decide) rfl rfl

/-! ### Temporal and frame properties -/

/-- Claim C9: once a session is inactive, no service call reactivates it: the
record at the same position stays inactive under every operation, and a new
login appends a fresh record at a fresh position instead. -/
theorem inactive_never_reactivated :
    (∀ (st : Store) (op : Op) (i : Nat) (s : Session),
      st.sessions[i]? = some s → s.isActive = false →
      ∃ s' : Session, (step st op).sessions[i]? = some s' ∧ s'.isActive = false) ∧
    (∀ (st : Store) (u ua ip : String) (now : Int) (today : String),
      (recordLogin st u ua ip now today).sessions.length = st.sessions.length + 1 ∧
      (recordLogin st u ua ip now today).sessions[st.sessions.length]? =
        some ⟨u, detectDevice ua, ip, ua, true, now, now⟩) := by
  constructor
  · intro st op i s hsome hinact
    have hi : i < st.sessions.length := (List.getElem?_eq_some.1 hsome).1
    cases op with
    | login u ua ip now today =>
      refine ⟨closeActiveFor u s, ?_, ?_⟩
      · show (st.sessions.map (closeActiveFor u) ++ [_])[i]? = _
        rw [List.getElem?_append_left (by simpa using hi), List.getElem?_map, hsome]
        rfl
      · rw [closeActiveFor_of_inactive u s hinact]
        exact hinact
    | logout u =>
      refine ⟨closeActiveFor u s, ?_, ?_⟩
      · show (st.sessions.map (closeActiveFor u))[i]? = _
        rw [List.getElem?_map, hsome]
        rfl
      · rw [closeActiveFor_of_inactive u s hinact]
        exact hinact
    | beat u now =>
      refine ⟨s, ?_, hinact⟩
      show (st.sessions.map _)[i]? = _
      rw [List.getElem?_map, hsome]
      simp only [Option.map_some']
      rw [if_neg (show ¬((s.userId == u && s.isActive) = true) by simp [hinact])]
    | expire m now =>
      refine ⟨s, ?_, hinact⟩
      show (st.sessions.map _)[i]? = _
      rw [List.getElem?_map, hsome]
      simp only [Option.map_some']
      rw [if_neg (show
        ¬((s.isActive && decide (s.lastSeen < now - m * 60 * 1000)) = true) by
          simp [hinact])]
    | query today now => exact ⟨s, hsome, hinact⟩
  · intro st u ua ip now today
    constructor
    · simp [recordLogin]
    · show (st.sessions.map (closeActiveFor u) ++ [_])[st.sessions.length]? = _
      rw [List.getElem?_append_right (by simp)]
      simp

/-- Witness for C9: a concrete inactive session stays inactive across a later
login of the same user, which shows up as a fresh appended record. -/
theorem inactive_never_reactivated_witness :
    (∃ s' : Session,
      (step ⟨[⟨"alice", DeviceType.mobile, "ip", "ua", false, 0, 0⟩], []⟩
        (Op.login "alice" "ua" "ip" 9 "2026-01-01")).sessions[0]? = some s' ∧
      s'.isActive = false) ∧
    (recordLogin ⟨[⟨"alice", DeviceType.mobile, "ip", "ua", false, 0, 0⟩], []⟩
      "alice" "ua" "ip" 9 "2026-01-01").sessions.length = 2 := by
  constructor
  · exact inactive_never_reactivated.1
      ⟨[⟨"alice", DeviceType.mobile, "ip", "ua", false, 0, 0⟩], []⟩
      (Op.login "alice" "ua" "ip" 9 "2026-01-01") 0
      ⟨"alice", DeviceType.mobile, "ip", "ua", false, 0, 0⟩ (by decide) rfl
  · exact (inactive_never_reactivated.2
      ⟨[⟨"alice", DeviceType.mobile, "ip", "ua", false, 0, 0⟩], []⟩
      "alice" "ua" "ip" 9 "2026-01-01").1

/-- Claim C10: per-user frame property.  For users `u ≠ v`, a login, logout
or heartbeat of `u` leaves every session of `v` untouched at its position;
logout and heartbeat leave every inactive session untouched; heartbeat can
change nothing but `lastSeen` of a session; and logout and heartbeat do not
touch the daily stats. -/
theorem per_user_frame :
    ∀ (st : Store) (u v ua ip : String) (now : Int) (today : String), u ≠ v →
      (∀ (i : Nat) (s : Session), st.sessions[i]? = some s → s.userId = v →
        (recordLogin st u ua ip now today).sessions[i]? = some s ∧
        (recordLogout st u).sessions[i]? = some s ∧
        (heartbeat st u now).sessions[i]? = some s) ∧
      (∀ (i : Nat) (s : Session), st.sessions[i]? = some s → s.isActive = false →
        (recordLogout st u).sessions[i]? = some s ∧
        (heartbeat st u now).sessions[i]? = some s) ∧
      (∀ (i : Nat) (s : Session), st.sessions[i]? = some s →
        ∃ s' : Session, (heartbeat st u now).sessions[i]? = some s' ∧
          s'.userId = s.userId ∧ s'.deviceType = s.deviceType ∧
          s'.ipAddress = s.ipAddress ∧ s'.userAgent = s.userAgent ∧
          s'.isActive = s.isActive ∧ s'.loginAt = s.loginAt) ∧
      (recordLogout st u).dailyStats = st.dailyStats ∧
      (heartbeat st u now).dailyStats = st.dailyStats := by
  intro st u v ua ip now today huv
  have hbeat_ne : ∀ s : Session, s.userId ≠ u →
      (if s.userId == u && s.isActive then { s with lastSeen := now } else s) = s := by
    intro s hsu
    rw [if_neg (by simp [hsu])]
  have hbeat_inact : ∀ s : Session, s.isActive = false →
      (if s.userId == u && s.isActive then { s with lastSeen := now } else s) = s := by
    intro s hsa
    rw [if_neg (by simp [hsa])]
  refine ⟨?_, ?_, ?_, rfl, rfl⟩
  · intro i s hsome hv
    have hi : i < st.sessions.length := (List.getElem?_eq_some.1 hsome).1
    have hne : s.userId ≠ u := by
      rw [hv]
      exact Ne.symm huv
    refine ⟨?_, ?_, ?_⟩
    · show (st.sessions.map (closeActiveFor u) ++ [_])[i]? = _
      rw [List.getElem?_append_left (by simpa using hi), List.getElem?_map, hsome]
      simp only [Option.map_some']
      rw [closeActiveFor_ne u s hne]
    · show (st.sessions.map (closeActiveFor u))[i]? = _
      rw [List.getElem?_map, hsome]
      simp only [Option.map_some']
      rw [closeActiveFor_ne u s hne]
    · show (st.sessions.map _)[i]? = _
      rw [List.getElem?_map, hsome]
      simp only [Option.map_some']
      rw [hbeat_ne s hne]
  · intro i s hsome hinact
    refine ⟨?_, ?_⟩
    · show (st.sessions.map (closeActiveFor u))[i]? = _
      rw [List.getElem?_map, hsome]
      simp only [Option.map_some']
      rw [closeActiveFor_of_inactive u s hinact]
    · show (st.sessions.map _)[i]? = _
      rw [List.getElem?_map, hsome]
      simp only [Option.map_some']
      rw [hbeat_inact s hinact]
  · intro i s hsome
    refine ⟨if s.userId == u && s.isActive then { s with lastSeen := now } else s, ?_, ?_⟩
    · show (st.sessions.map _)[i]? = _
      rw [List.getElem?_map, hsome]
      rfl
    · by_cases hc : (s.userId == u && s.isActive) = true
      · rw [if_pos hc]
        exact ⟨rfl, rfl, rfl, rfl, rfl, rfl⟩
      · rw [if_neg hc]
        exact ⟨rfl, rfl, rfl, rfl, rfl, rfl⟩

/-- Witness for C10: bob's session is untouched by alice's login, logout and
heartbeat, and a heartbeat of bob changes only his session's `lastSeen`. -/
theorem per_user_frame_witness :
    ((recordLogin ⟨[⟨"bob", DeviceType.desktop, "ip", "ua", true, 0, 0⟩], []⟩
        "alice" "ua" "ip" 3 "2026-01-01").sessions[0]? =
      some ⟨"bob", DeviceType.desktop, "ip", "ua", true, 0, 0⟩) ∧
    ((recordLogout ⟨[⟨"bob", DeviceType.desktop, "ip", "ua", true, 0, 0⟩], []⟩
        "alice").sessions[0]? =
      some ⟨"bob", DeviceType.desktop, "ip", "ua", true, 0, 0⟩) ∧
    ((heartbeat ⟨[⟨"bob", DeviceType.desktop, "ip", "ua", true, 0, 0⟩], []⟩
        "alice" 3).sessions[0]? =
      some ⟨"bob", DeviceType.desktop, "ip", "ua", true, 0, 0⟩) ∧
    (∃ s' : Session,
      (heartbeat ⟨[⟨"bob", DeviceType.desktop, "ip", "ua", true, 0, 0⟩], []⟩
        "bob" 3).sessions[0]? = some s' ∧
      s'.userId = "bob" ∧ s'.deviceType = DeviceType.desktop ∧
      s'.ipAddress = "ip" ∧ s'.userAgent = "ua" ∧
      s'.isActive = true ∧ s'.loginAt = 0) := by
  have h := per_user_frame ⟨[⟨"bob", DeviceType.desktop, "ip", "ua", true, 0, 0⟩], []⟩
    "alice" "bob" "ua" "ip" 3 "2026-01-01" (by decide)
  have h1 := h.1 0 ⟨"bob", DeviceType.desktop, "ip", "ua", true, 0, 0⟩ (by decide) rfl
  have h2 := per_user_frame ⟨[⟨"bob", DeviceType.desktop, "ip", "ua", true, 0, 0⟩], []⟩
    "bob" "alice" "ua" "ip" 3 "2026-01-01" (by decide)
  have h3 := h2.2.2.1 0 ⟨"bob", DeviceType.desktop, "ip", "ua", true, 0, 0⟩ (by decide)
  exact ⟨h1.1, h1.2.1, h1.2.2, h3⟩

/-- Witness for C3: the mobile direction of the equivalence instantiated at a
concrete user agent containing the keyword "iphone". -/
theorem detectDevice_substring_spec_witness :
    detectDevice "iPhone13,3" = DeviceType.mobile :=
  (detectDevice_substring_spec.1 "iPhone13,3").2
    ⟨"iphone", by decide, by decide⟩
